import Mathlib

/-!
Verification of the OLS regression-analysis notebook
(`7_2_Basic_Regression_Analysis_Example_2`).

The notebook is a linear pipeline: data cleaning, collinearity screening
(VIF), OLS fitting (full data and a train/test split), diagnostic tests
(White, Breusch-Pagan, Ljung-Box, residual mean), error metrics
(MAE/MSE/RMSE/R²) and model serialization.  All numeric computation is
modelled exactly over `ℚ`; IEEE floats that would be `inf`/`nan` are
modelled with `Option` (`none` = non-finite).  Fallible library calls are
modelled with `Except String`.
-/

namespace Notebook

/-! ### Heteroscedasticity decision rules (notebook cell 25)

The notebook runs `diag.het_white(est.resid, est.model.exog)` and
`diag.het_breuschpagan(est.resid, est.model.exog)`, and in each case prints
"no heteroscedasticity" when `pval > 0.05` and "heteroscedasticity"
otherwise.  The p-value computation itself is a statsmodels call; the
notebook's own logic is the decision on the returned p-value, so the test
is a parameter (`het`) and the decision rule is embedded exactly. -/

/-- The message printed by the White-test branch of cell 25:
`if pval > 0.05` print "no heteroscedasticity" else "heteroscedasticity". -/
def whiteReport (pval : ℚ) : String :=
  if pval > 1/20 then "no heteroscedasticity" else "heteroscedasticity present"

/-- The message printed by the Breusch-Pagan branch of cell 25; the code is
a second, independent `if pval > 0.05` block with the same two messages. -/
def breuschPaganReport (pval : ℚ) : String :=
  if pval > 1/20 then "no heteroscedasticity" else "heteroscedasticity present"

/-- White's check as the notebook composes it: the statsmodels test `het`
(resid, exog) ↦ p-value, then the decision rule. -/
def whiteCheck (het : List ℚ → List (List ℚ) → ℚ)
    (resid : List ℚ) (exog : List (List ℚ)) : String :=
  whiteReport (het resid exog)

/-- Breusch-Pagan check as the notebook composes it. -/
def breuschPaganCheck (het : List ℚ → List (List ℚ) → ℚ)
    (resid : List ℚ) (exog : List (List ℚ)) : String :=
  breuschPaganReport (het resid exog)

/-! ### Ljung-Box autocorrelation check (notebook cell 29)

`lag = min(10, len(X)//5)`, `test_results = diag.acorr_ljungbox(est.resid,
lags=lag)`, then `if min(p_val) > 0.05` print "no autocorrelation" else
"autocorrelation".  `min` of an empty Python list raises, which is modelled
by `Option`: `none` = exception. -/

/-- Python `min` on a list of rationals: `none` on the empty list
(a `ValueError` in Python). -/
def pyMin : List ℚ → Option ℚ
  | [] => none
  | x :: xs => some (xs.foldl min x)

/-- Outcome of the Ljung-Box cell: the lag actually used, the minimum
p-value, and the printed verdict (`none` = the cell raised). -/
structure LjungBoxRun where
  lag : ℕ
  minP : Option ℚ
  verdict : Option String
  deriving Repr, DecidableEq

/-- Notebook cell 29, with the statsmodels test `lb` (resid, lags ↦ one
p-value per tested lag) as a parameter: computes `lag = min(10, n // 5)`
from the residual length, runs the test at that lag, and decides on the
minimum p-value. -/
def acorrLjungboxCheck (lb : List ℚ → ℕ → List ℚ) (resid : List ℚ) :
    LjungBoxRun :=
  let lag := min 10 (resid.length / 5)
  let pvals := lb resid lag
  match pyMin pvals with
  | none => ⟨lag, none, none⟩
  | some m =>
      ⟨lag, some m,
        some (if m > 1/20 then "no autocorrelation" else "autocorrelation present")⟩

/-! ### Model serialization (notebook cell 47)

`pickle.dump(regression_model, f)` / `pickle.load(...)` /
`regression_model_2.predict(...)`.  A fitted sklearn `LinearRegression`
consists of its coefficient vector and intercept; pickling stores those
fields exactly and loading reconstructs them exactly, so serialization is
embedded as an exact flat encoding with a length header, and
deserialization as its parser. -/

/-- A fitted linear model as persisted by cell 47: the coefficient vector
(`coef_`) and the intercept (`intercept_`) of the sklearn model. -/
structure FittedModel where
  coef : List ℚ
  intercept : ℚ
  deriving Repr, DecidableEq

/-- Prediction of the (possibly reloaded) model on one feature row:
`intercept + Σ coefᵢ · xᵢ`. -/
def FittedModel.predictRow (m : FittedModel) (x : List ℚ) : ℚ :=
  m.intercept + ((m.coef.zip x).map fun p => p.1 * p.2).sum

/-- Prediction on a batch of feature rows (`regression_model.predict(X_test)`). -/
def FittedModel.predict (m : FittedModel) (X : List (List ℚ)) : List ℚ :=
  X.map m.predictRow

/-- Serialized byte form of the model: a length header, the coefficients in
order, then the intercept — the exact field contents, as pickle stores them. -/
def serializeModel (m : FittedModel) : List ℚ :=
  (m.coef.length : ℚ) :: (m.coef ++ [m.intercept])

/-- Deserialization: parse the header, recover the coefficient vector and
intercept; `none` on a malformed blob. -/
def deserializeModel : List ℚ → Option FittedModel
  | [] => none
  | h :: rest =>
      let k := h.num.toNat
      if (h = (k : ℚ)) ∧ rest.length = k + 1 then
        some ⟨rest.take k, (rest.drop k).headI⟩
      else
        none

/-! ### OLS fitting (notebook cells 23, 27)

`model = sm.OLS(Y, X2)`, `est = model.fit()` and
`robust_ols = model.fit(cov_type='HC1')`.  The least-squares coefficients
are the normal-equations solution `(XᵀX)⁻¹ Xᵀ Y`; the matrix inverse is
the explicit adjugate formula so every definition stays executable. -/

open Matrix in
/-- Explicit (executable) inverse of a square rational matrix:
`det⁻¹ • adjugate`; the zero matrix when the matrix is singular. -/
def matInv {k : ℕ} (A : Matrix (Fin k) (Fin k) ℚ) : Matrix (Fin k) (Fin k) ℚ :=
  (A.det)⁻¹ • A.adjugate

open Matrix in
/-- The field `est.params`: the least-squares coefficient vector `(XᵀX)⁻¹ Xᵀ Y`
of the regression of `Y` on the design matrix `X`. -/
def olsParams {n k : ℕ} (X : Matrix (Fin n) (Fin k) ℚ) (Y : Fin n → ℚ) :
    Fin k → ℚ :=
  matInv (Xᵀ * X) *ᵥ (Xᵀ *ᵥ Y)

open Matrix in
/-- The field `est.resid`: the residual vector `Y − X·params` of the fit. -/
def olsResid {n k : ℕ} (X : Matrix (Fin n) (Fin k) ℚ) (Y : Fin n → ℚ) :
    Fin n → ℚ :=
  Y - X *ᵥ olsParams X Y

/-- Cell 31: `mean_residuals = sum(est.resid) / len(est.resid)`. -/
def mean_residuals {n k : ℕ} (X : Matrix (Fin n) (Fin k) ℚ) (Y : Fin n → ℚ) :
    ℚ :=
  (∑ i, olsResid X Y i) / n

/-- The covariance option passed to `model.fit`: default (`nonrobust`) or
`cov_type='HC1'` as in cell 27. -/
inductive CovType where
  | nonrobust
  | HC1
  deriving Repr, DecidableEq

/-- The fields of a statsmodels OLS results object used by the notebook. -/
structure OLSFit (n k : ℕ) where
  params : Fin k → ℚ
  resid : Fin n → ℚ
  fittedValues : Fin n → ℚ
  cov : Matrix (Fin k) (Fin k) ℚ

open Matrix in
/-- The call `model.fit(cov_type=...)`: the coefficients are the least-squares
solution regardless of the covariance option; only the parameter
covariance matrix depends on it — `s²(XᵀX)⁻¹` for the standard fit,
the `n/(n−k)`-rescaled sandwich estimator for `HC1`. -/
def olsFit {n k : ℕ} (X : Matrix (Fin n) (Fin k) ℚ) (Y : Fin n → ℚ)
    (ct : CovType) : OLSFit n k :=
  let β := olsParams X Y
  let r := Y - X *ᵥ β
  { params := β
    resid := r
    fittedValues := X *ᵥ β
    cov :=
      match ct with
      | .nonrobust => ((∑ i, r i ^ 2) / ((n : ℚ) - (k : ℚ))) • matInv (Xᵀ * X)
      | .HC1 =>
          ((n : ℚ) / ((n : ℚ) - (k : ℚ))) •
            (matInv (Xᵀ * X) * (Xᵀ * Matrix.diagonal (fun i => r i ^ 2) * X) *
              matInv (Xᵀ * X)) }

/-! ### Variance inflation factors (notebook cell 9)

`variance_inflation_factor(X.values, i)` regresses column `i` on the other
columns, takes that auxiliary regression's `rsquared = 1 − ssr/centered_tss`,
and returns `1/(1 − rsquared)`.  In IEEE arithmetic `1/0 = inf`; the
non-finite outcome is modelled as `none`. -/

open Matrix in
/-- The `rsquared` of an OLS fit: `1 − ssr / centered_tss`. -/
def rsquared {n k : ℕ} (X : Matrix (Fin n) (Fin k) ℚ) (y : Fin n → ℚ) : ℚ :=
  let r := y - X *ᵥ olsParams X y
  let ybar := (∑ i, y i) / n
  1 - (∑ i, r i ^ 2) / (∑ i, (y i - ybar) ^ 2)

/-- The design matrix with column `j` removed (`x_noti` in statsmodels). -/
def dropColumn {n k : ℕ} (X : Matrix (Fin n) (Fin (k + 1)) ℚ)
    (j : Fin (k + 1)) : Matrix (Fin n) (Fin k) ℚ :=
  Matrix.of fun i l => X i (j.succAbove l)

/-- The call `variance_inflation_factor(exog, exog_idx)`: `1/(1 − r²)` for the
auxiliary regression of column `j` on the remaining columns; `none`
models the IEEE `inf` produced by `1/0`. -/
def varianceInflationFactor {n k : ℕ} (X : Matrix (Fin n) (Fin (k + 1)) ℚ)
    (j : Fin (k + 1)) : Option ℚ :=
  let rsq := rsquared (dropColumn X j) (fun i => X i j)
  if 1 - rsq = 0 then none else some (1 / (1 - rsq))

/-- Cell 9's series: one VIF entry per column of the design matrix,
`[variance_inflation_factor(X.values, i) for i in range(X.shape[1])]`. -/
def vifSeries {n k : ℕ} (X : Matrix (Fin n) (Fin (k + 1)) ℚ) :
    List (Option ℚ) :=
  (List.finRange (k + 1)).map (varianceInflationFactor X)

/-! ### Error metrics (notebook cells 33, 35)

`mean_squared_error(y_test, y_predict)`, `mean_absolute_error(...)`,
`model_rmse = math.sqrt(model_mse)`, `r2_score(...)`.  The sklearn metric
functions first validate that the two vectors have consistent lengths and
raise on a mismatch; the raised shape error is modelled as
`Except.error "ShapeError"`. -/

/-- The call `mean_squared_error(y_true, y_pred)`: mean of squared differences,
after the consistent-length check. -/
def mean_squared_error (yTrue yPred : List ℚ) : Except String ℚ :=
  if yTrue.length = yPred.length then
    .ok ((((yTrue.zip yPred).map fun p => (p.1 - p.2) ^ 2).sum) / yTrue.length)
  else
    .error "ShapeError"

/-- The call `mean_absolute_error(y_true, y_pred)`: mean of absolute differences,
after the consistent-length check. -/
def mean_absolute_error (yTrue yPred : List ℚ) : Except String ℚ :=
  if yTrue.length = yPred.length then
    .ok ((((yTrue.zip yPred).map fun p => |p.1 - p.2|).sum) / yTrue.length)
  else
    .error "ShapeError"

/-- Cell 33: `model_rmse = math.sqrt(model_mse)` — the square root (an
external real-valued routine, passed as a parameter) applied to the MSE;
if the MSE computation raised, the RMSE line is never reached. -/
def model_rmse (sqrt : ℚ → ℚ) (yTrue yPred : List ℚ) : Except String ℚ :=
  (mean_squared_error yTrue yPred).map sqrt

/-- The call `r2_score(y_true, y_pred)`: `1 − SS_res/SS_tot`, after the
consistent-length check. -/
def r2_score (yTrue yPred : List ℚ) : Except String ℚ :=
  if yTrue.length = yPred.length then
    let ybar := yTrue.sum / yTrue.length
    .ok (1 - (((yTrue.zip yPred).map fun p => (p.1 - p.2) ^ 2).sum) /
      ((yTrue.map fun y => (y - ybar) ^ 2).sum))
  else
    .error "ShapeError"

/-! ### Data loading and cleaning (notebook cell 5)

`econ_df.replace('..','nan')`, then `astype(float)`, then
`loc['1969':'2016']`, then `rename(columns=...)`.  A spreadsheet cell is
either numeric or text; `replace` turns the `'..'` sentinel into the text
`'nan'`; `astype(float)` maps numbers to finite floats, the text `'nan'`
to the float NaN (modelled `none`), and raises on any other text;
the row filter keeps the inclusive year range; `rename` maps the column
names. -/

/-- A raw spreadsheet cell: a number, or a text token such as the `".."`
missing-value sentinel. -/
inductive RawCell where
  | num (q : ℚ)
  | str (s : String)
  deriving Repr, DecidableEq

/-- The step `replace('..','nan')` applied to one cell. -/
def replaceSentinel : RawCell → RawCell
  | .str s => if s = ".." then .str "nan" else .str s
  | .num q => .num q

/-- The step `astype(float)` on one cell: a number becomes a finite float, the text
`"nan"` becomes NaN (`none`), any other text raises. -/
def toFloat : RawCell → Except String (Option ℚ)
  | .num q => .ok (some q)
  | .str s => if s = "nan" then .ok none else .error "DataError"

/-- Coerce one row of cells, propagating the first coercion failure. -/
def coerceCells : List RawCell → Except String (List (Option ℚ))
  | [] => .ok []
  | c :: cs => do
      let v ← toFloat (replaceSentinel c)
      let vs ← coerceCells cs
      .ok (v :: vs)

/-- Coerce every indexed row of the table. -/
def coerceRows :
    List (Int × List RawCell) → Except String (List (Int × List (Option ℚ)))
  | [] => .ok []
  | (y, cs) :: rest => do
      let vs ← coerceCells cs
      let rs ← coerceRows rest
      .ok ((y, vs) :: rs)

/-- The raw year-indexed table as loaded from the spreadsheet. -/
structure RawTable where
  colNames : List String
  rows : List (Int × List RawCell)

/-- The cleaned table: float cells (`none` = NaN) in renamed columns. -/
structure CleanTable where
  colNames : List String
  rows : List (Int × List (Option ℚ))
  deriving Repr, DecidableEq

/-- Cell 5's cleaning pipeline in source order: replace the sentinel,
coerce everything to float, keep rows with `1969 ≤ year ≤ 2016`, rename
the columns. -/
def cleanTable (rename : String → String) (t : RawTable) :
    Except String CleanTable :=
  (coerceRows t.rows).map fun rs =>
    { colNames := t.colNames.map rename
      rows := rs.filter fun r => decide (1969 ≤ r.1) && decide (r.1 ≤ 2016) }

/-- The check `not econ_df.isnull().any().any()`: the cleaned table has no missing
(NaN) cell in any column. -/
def noMissing (t : CleanTable) : Bool :=
  t.rows.all fun r => r.2.all Option.isSome

/-! ### Train/test split, sklearn fit, and the full pipeline
(notebook cells 16, 20, 23, 25-35)

`train_test_split(X, Y, test_size=0.20, random_state=1)` shuffles the `n`
row indices with a PRNG seeded by `random_state` and takes the first
`ceil(0.2·n)` as the test set and the rest as the training set; the
seeded shuffle itself is a library routine, so it enters as the parameter
`shuffle`.  `LinearRegression().fit(X_train, y_train)` is least squares
with an intercept.  The diagnostics consume `est.resid` from the
statsmodels fit on the full `(X, Y)`; the metrics consume
`(y_test, y_predict)` from the sklearn fit on the training split. -/

open Matrix in
/-- The call `sm.add_constant(X)`: prepend a column of ones to the design matrix. -/
def addConstant {n k : ℕ} (X : Matrix (Fin n) (Fin k) ℚ) :
    Matrix (Fin n) (Fin (k + 1)) ℚ :=
  Matrix.of fun i j => Fin.cases 1 (fun l => X i l) j

/-- Row selection: the submatrix of `X` at the listed row indices. -/
def selectRows {n k : ℕ} (X : Matrix (Fin n) (Fin k) ℚ)
    (idx : List (Fin n)) : Matrix (Fin idx.length) (Fin k) ℚ :=
  Matrix.of fun i j => X (idx.get i) j

/-- Entry selection from a target vector at the listed row indices. -/
def selectVec {n : ℕ} (Y : Fin n → ℚ) (idx : List (Fin n)) :
    Fin idx.length → ℚ :=
  fun i => Y (idx.get i)

/-- With `test_size=0.20` on `n` rows: `ceil(0.2·n)` test observations. -/
def nTestOf (n : ℕ) : ℕ := (n + 4) / 5

/-- The call `train_test_split(..., test_size=0.20, random_state=seed)`: shuffle
the indices with the seeded permutation, take the first `nTestOf n` as
the test set and the remainder as the training set; returns
(train indices, test indices). -/
def trainTestSplit (shuffle : ℕ → (n : ℕ) → List (Fin n)) (seed n : ℕ) :
    List (Fin n) × List (Fin n) :=
  let perm := shuffle seed n
  (perm.drop (nTestOf n), perm.take (nTestOf n))

/-- The call `LinearRegression().fit(X, y)`: least squares with an intercept —
the coefficients of the constant-augmented design (intercept first). -/
def sklearnFitParams {m k : ℕ} (X : Matrix (Fin m) (Fin k) ℚ)
    (y : Fin m → ℚ) : Fin (k + 1) → ℚ :=
  olsParams (addConstant X) y

/-- Prediction of the sklearn model on one feature row:
`intercept + Σ coefₗ·xₗ`. -/
def sklearnPredictRow {k : ℕ} (β : Fin (k + 1) → ℚ) (x : Fin k → ℚ) : ℚ :=
  β 0 + ∑ l, β l.succ * x l

/-- Everything one run of the notebook produces downstream of the split:
the partition, the residual vector handed to the diagnostic cells, the
Ljung-Box lag, and the held-out test targets/predictions with their
metrics. -/
structure PipelineRun (n : ℕ) where
  trainIdx : List (Fin n)
  testIdx : List (Fin n)
  diagResid : Fin n → ℚ
  lag : ℕ
  yTest : List ℚ
  yPredict : List ℚ
  mae : Except String ℚ
  mse : Except String ℚ
  r2 : Except String ℚ

open Matrix in
/-- One top-to-bottom run of the notebook after loading: split `(X, Y)`
with the seeded shuffle, fit sklearn least squares on the training rows,
predict on the test rows, fit statsmodels OLS on the full data for the
diagnostic cells, and compute the held-out metrics. -/
def runPipeline (shuffle : ℕ → (n : ℕ) → List (Fin n)) (seed : ℕ)
    {n k : ℕ} (X : Matrix (Fin n) (Fin k) ℚ) (Y : Fin n → ℚ) :
    PipelineRun n :=
  let split := trainTestSplit shuffle seed n
  let trainIdx := split.1
  let testIdx := split.2
  let β := sklearnFitParams (selectRows X trainIdx) (selectVec Y trainIdx)
  let yPredict := testIdx.map fun i => sklearnPredictRow β fun l => X i l
  let yTest := testIdx.map Y
  let est := olsFit (addConstant X) Y .nonrobust
  { trainIdx := trainIdx
    testIdx := testIdx
    diagResid := est.resid
    lag := min 10 (n / 5)
    yTest := yTest
    yPredict := yPredict
    mae := mean_absolute_error yTest yPredict
    mse := mean_squared_error yTest yPredict
    r2 := r2_score yTest yPredict }

end Notebook

/-! ## Theorems -/

open Notebook

open Matrix

/-- The two branch messages of cell 25 are distinct strings. -/
lemma hetero_msgs_ne :
    ("no heteroscedasticity" : String) ≠ "heteroscedasticity present" := by
  decide

/-- Characterization of the p-value decision rule shared by both
heteroscedasticity report functions. -/
lemma whiteReport_eq_iff (p : ℚ) :
    (whiteReport p = "no heteroscedasticity" ↔ p > 1/20) ∧
    (¬ p > 1/20 → whiteReport p = "heteroscedasticity present") := by
  unfold whiteReport
  by_cases h : p > 1/20
  · rw [if_pos h]
    exact ⟨⟨fun _ => h, fun _ => rfl⟩, fun hn => absurd h hn⟩
  · rw [if_neg h]
    exact ⟨⟨fun he => absurd he.symm hetero_msgs_ne, fun hp => absurd hp h⟩,
      fun _ => rfl⟩

/-- Claim C2: both the White and the Breusch-Pagan checks report
"no heteroscedasticity" iff the test's p-value is strictly greater
than 0.05, otherwise report "heteroscedasticity present"; a p-value of
exactly 0.05 falls on the same side (reject) in both tests. -/
theorem white_bp_decision_rule (het₁ het₂ : List ℚ → List (List ℚ) → ℚ)
    (resid : List ℚ) (exog : List (List ℚ)) :
    (whiteCheck het₁ resid exog = "no heteroscedasticity" ↔ het₁ resid exog > 1/20) ∧
    (¬ het₁ resid exog > 1/20 →
      whiteCheck het₁ resid exog = "heteroscedasticity present") ∧
    (breuschPaganCheck het₂ resid exog = "no heteroscedasticity" ↔
      het₂ resid exog > 1/20) ∧
    (¬ het₂ resid exog > 1/20 →
      breuschPaganCheck het₂ resid exog = "heteroscedasticity present") ∧
    (het₁ resid exog = 1/20 →
      whiteCheck het₁ resid exog = "heteroscedasticity present") ∧
    (het₂ resid exog = 1/20 →
      breuschPaganCheck het₂ resid exog = "heteroscedasticity present") := by
  have h₁ := whiteReport_eq_iff (het₁ resid exog)
  have h₂ := whiteReport_eq_iff (het₂ resid exog)
  refine ⟨h₁.1, h₁.2, h₂.1, h₂.2, ?_, ?_⟩
  · intro hp
    exact h₁.2 (by rw [hp]; exact lt_irrefl _)
  · intro hp
    exact h₂.2 (by rw [hp]; exact lt_irrefl _)

/-- Claim C2 witness at a concrete p-value (0.05 exactly). -/
theorem white_bp_decision_rule_witness :
    whiteCheck (fun _ _ => 1/20) [] [] = "heteroscedasticity present" := by
  have h := white_bp_decision_rule (fun _ _ => 1/20) (fun _ _ => 1/20) [] []
  exact h.2.2.2.2.1 rfl

/-- Claim C3: the Ljung-Box check is run with lag count `min(10, n // 5)`
where `n` is the number of observations, and its verdict comes from the
minimum p-value across the tested lags: "no autocorrelation" iff that
minimum is strictly greater than 0.05, otherwise "autocorrelation present". -/
theorem ljungbox_lag_and_decision (lb : List ℚ → ℕ → List ℚ) (resid : List ℚ)
    (m : ℚ) (hm : pyMin (lb resid (min 10 (resid.length / 5))) = some m) :
    (acorrLjungboxCheck lb resid).lag = min 10 (resid.length / 5) ∧
    (acorrLjungboxCheck lb resid).minP = some m ∧
    ((acorrLjungboxCheck lb resid).verdict = some "no autocorrelation" ↔ m > 1/20) ∧
    (¬ m > 1/20 →
      (acorrLjungboxCheck lb resid).verdict = some "autocorrelation present") := by
  simp only [acorrLjungboxCheck]
  rw [hm]
  dsimp only
  refine ⟨rfl, rfl, ?_, ?_⟩
  · by_cases h : m > 1/20
    · rw [if_pos h]
      exact ⟨fun _ => h, fun _ => rfl⟩
    · rw [if_neg h]
      constructor
      · intro he
        exact absurd (Option.some_injective _ he)
          (by intro hs; exact absurd hs.symm (by decide))
      · intro hp
        exact absurd hp h
  · intro h
    rw [if_neg h]

/-- Claim C3 witness: 23 residuals give lag `min(10, 23 / 5) = 4`; a test
returning p-values `[0.3, 0.02, 0.4, 0.5]` has minimum 0.02 ≤ 0.05, so the
verdict is "autocorrelation present". -/
theorem ljungbox_lag_and_decision_witness :
    (acorrLjungboxCheck
        (fun _ _ => [3/10, 1/50, 2/5, 1/2]) (List.replicate 23 0)).lag = 4 ∧
    (acorrLjungboxCheck
        (fun _ _ => [3/10, 1/50, 2/5, 1/2]) (List.replicate 23 0)).verdict =
      some "autocorrelation present" := by
  have h := ljungbox_lag_and_decision (fun _ _ => [3/10, 1/50, 2/5, 1/2])
    (List.replicate 23 0) (1/50)
    (by simp only [pyMin, List.foldl]; norm_num [min_def])
  exact ⟨h.1, h.2.2.2 (by norm_num)⟩

/-- Claim C1: predicting with the model obtained by deserializing the
serialized byte form of a fitted model yields exactly the same predictions
as the original in-memory model, on every batch of feature rows. -/
theorem serialize_roundtrip_predict (m : FittedModel) (X : List (List ℚ)) :
    (deserializeModel (serializeModel m)).map (fun m₂ => m₂.predict X) =
      some (m.predict X) := by
  have hnum : ((m.coef.length : ℚ)).num.toNat = m.coef.length := by
    rw [Rat.num_natCast]
    exact Int.toNat_natCast _
  have hdes : deserializeModel (serializeModel m) = some m := by
    show deserializeModel
      ((m.coef.length : ℚ) :: (m.coef ++ [m.intercept])) = some m
    simp only [deserializeModel, hnum]
    rw [if_pos ⟨trivial, by simp⟩]
    have ht : (m.coef ++ [m.intercept]).take m.coef.length = m.coef :=
      List.take_left _ _
    have hd : (m.coef ++ [m.intercept]).drop m.coef.length = [m.intercept] :=
      List.drop_left _ _
    rw [ht, hd]
    rfl
  rw [hdes, Option.map_some']

/-! ### OLS algebra -/

open Matrix in
/-- The executable adjugate-based inverse agrees with Mathlib's matrix
inverse over `ℚ`. -/
lemma matInv_eq_inv {k : ℕ} (A : Matrix (Fin k) (Fin k) ℚ) :
    matInv A = A⁻¹ := by
  rw [Matrix.inv_def, Ring.inverse_eq_inv']
  rfl

open Matrix in
/-- A nonsingular rational matrix times its executable inverse is `1`. -/
lemma mul_matInv_eq_one {k : ℕ} (A : Matrix (Fin k) (Fin k) ℚ)
    (h : A.det ≠ 0) : A * matInv A = 1 := by
  rw [matInv_eq_inv]
  exact Matrix.mul_nonsing_inv A (isUnit_iff_ne_zero.mpr h)

open Matrix in
/-- Normal equations: when `XᵀX` is nonsingular the residual vector of the
least-squares fit is orthogonal to every column of the design matrix. -/
lemma transpose_mulVec_olsResid {n k : ℕ} (X : Matrix (Fin n) (Fin k) ℚ)
    (Y : Fin n → ℚ) (hdet : (Xᵀ * X).det ≠ 0) :
    Xᵀ *ᵥ olsResid X Y = 0 := by
  unfold olsResid olsParams
  rw [Matrix.mulVec_sub, Matrix.mulVec_mulVec, Matrix.mulVec_mulVec,
    mul_matInv_eq_one _ hdet, Matrix.one_mulVec]
  exact sub_self _

open Matrix in
/-- Claim C4: for a well-posed OLS fit (`XᵀX` nonsingular) whose design
matrix contains an intercept column of ones, the mean of the residuals is
exactly `0`. -/
theorem ols_mean_residuals_zero {n k : ℕ} (X : Matrix (Fin n) (Fin k) ℚ)
    (Y : Fin n → ℚ) (j : Fin k) (hdet : (Xᵀ * X).det ≠ 0)
    (hones : ∀ i, X i j = 1) :
    mean_residuals X Y = 0 := by
  have horth := transpose_mulVec_olsResid X Y hdet
  have hj : (Xᵀ *ᵥ olsResid X Y) j = 0 := by rw [horth]; rfl
  have hsum : (∑ i, olsResid X Y i) = 0 := by
    calc (∑ i, olsResid X Y i)
        = ∑ i, Xᵀ j i * olsResid X Y i := by
          refine Finset.sum_congr rfl fun i _ => ?_
          rw [Matrix.transpose_apply, hones i, one_mul]
      _ = (Xᵀ *ᵥ olsResid X Y) j := rfl
      _ = 0 := hj
  unfold mean_residuals
  rw [hsum, zero_div]

/-- Concrete design matrix `[[1,1],[1,2],[1,3],[1,4]]` (intercept column
plus one regressor). -/
def Xdemo : Matrix (Fin 4) (Fin 2) ℚ := !![1, 1; 1, 2; 1, 3; 1, 4]

/-- Concrete target vector `[2,4,6,8]`. -/
def Ydemo : Fin 4 → ℚ := ![2, 4, 6, 8]

/-- Claim C4 witness: on the concrete data `Xdemo`, `Ydemo` the Gram matrix
is nonsingular, column 0 is all ones, and the residual mean is exactly 0. -/
theorem ols_mean_residuals_zero_witness :
    mean_residuals Xdemo Ydemo = 0 := by
  have hdet : ((Xdemo)ᵀ * Xdemo).det ≠ 0 := by
    have h : ((Xdemo)ᵀ * Xdemo) = !![4, 10; 10, 30] := by
      ext i j
      fin_cases i <;> fin_cases j <;>
        simp [Xdemo, Matrix.mul_apply, Fin.sum_univ_succ] <;> norm_num
    rw [h, Matrix.det_fin_two_of]
    norm_num
  have hones : ∀ i, Xdemo i 0 = 1 := by
    intro i
    fin_cases i <;> rfl
  exact ols_mean_residuals_zero Xdemo Ydemo 0 hdet hones

/-- Claim C5: fitting with the robust HC1 covariance option leaves the
point coefficient estimates — and hence the residuals and fitted values —
identical to those of the standard non-robust fit on the same data; the
covariance option enters only the parameter covariance matrix (from which
standard errors and p-values derive). -/
theorem hc1_changes_only_cov {n k : ℕ} (X : Matrix (Fin n) (Fin k) ℚ)
    (Y : Fin n → ℚ) :
    (olsFit X Y .HC1).params = (olsFit X Y .nonrobust).params ∧
    (olsFit X Y .HC1).resid = (olsFit X Y .nonrobust).resid ∧
    (olsFit X Y .HC1).fittedValues = (olsFit X Y .nonrobust).fittedValues :=
  ⟨rfl, rfl, rfl⟩

/-- A nonsingular rational matrix's executable inverse times the matrix
is `1`. -/
lemma matInv_mul_eq_one {k : ℕ} (A : Matrix (Fin k) (Fin k) ℚ)
    (h : A.det ≠ 0) : matInv A * A = 1 := by
  rw [matInv_eq_inv]
  exact Matrix.nonsing_inv_mul A (isUnit_iff_ne_zero.mpr h)

/-- When the target is an exact linear combination `X·c` of the design
columns and `XᵀX` is nonsingular, least squares recovers `c` exactly. -/
lemma olsParams_exact_fit {n k : ℕ} (X : Matrix (Fin n) (Fin k) ℚ)
    (c : Fin k → ℚ) (hdet : (Xᵀ * X).det ≠ 0) :
    olsParams X (X *ᵥ c) = c := by
  unfold olsParams
  rw [Matrix.mulVec_mulVec, Matrix.mulVec_mulVec, Matrix.mul_assoc,
    matInv_mul_eq_one _ hdet, Matrix.one_mulVec]

/-- An exactly representable target gives an auxiliary regression with
zero residuals, hence `rsquared = 1`. -/
lemma rsquared_exact_fit {n k : ℕ} (X : Matrix (Fin n) (Fin k) ℚ)
    (c : Fin k → ℚ) (hdet : (Xᵀ * X).det ≠ 0) :
    rsquared X (X *ᵥ c) = 1 := by
  unfold rsquared
  rw [olsParams_exact_fit _ _ hdet]
  simp

/-- Claim C8: for a design matrix whose column `j` is perfectly collinear
with the remaining columns (an exact linear combination of them, the
others being well-conditioned), the VIF computation reports column `j` as
infinite/undefined (`none`), never a finite value; and the VIF series has
one entry per column, so no column is silently dropped. -/
theorem vif_perfect_collinearity_infinite {n k : ℕ}
    (X : Matrix (Fin n) (Fin (k + 1)) ℚ) (j : Fin (k + 1)) (c : Fin k → ℚ)
    (hcol : (fun i => X i j) = dropColumn X j *ᵥ c)
    (hdet : ((dropColumn X j)ᵀ * dropColumn X j).det ≠ 0) :
    varianceInflationFactor X j = none ∧ (vifSeries X).length = k + 1 := by
  constructor
  · unfold varianceInflationFactor
    have hrsq : rsquared (dropColumn X j) (fun i => X i j) = 1 := by
      rw [hcol]
      exact rsquared_exact_fit _ _ hdet
    rw [hrsq]
    simp
  · simp [vifSeries]

/-- Concrete 3×3 design whose third column is exactly twice the second:
columns (intercept, x, 2x). -/
def Xcollinear : Matrix (Fin 3) (Fin 3) ℚ := !![1, 1, 2; 1, 2, 4; 1, 3, 6]

/-- Claim C8 witness: on `Xcollinear` the third column is the exact
combination `0·const + 2·x` of the other two, their Gram matrix is
nonsingular, and the VIF of that column is reported as infinite (`none`)
while the series still has 3 entries. -/
theorem vif_perfect_collinearity_infinite_witness :
    varianceInflationFactor Xcollinear 2 = none ∧
      (vifSeries Xcollinear).length = 3 := by
  have hdropEq : dropColumn Xcollinear 2 = !![1, 1; 1, 2; 1, 3] := by
    ext i l
    fin_cases i <;> fin_cases l <;> rfl
  have hcol : (fun i => Xcollinear i 2) =
      dropColumn Xcollinear 2 *ᵥ ![0, 2] := by
    rw [hdropEq]
    funext i
    fin_cases i <;>
      simp [Xcollinear, Matrix.mulVec, dotProduct, Fin.sum_univ_succ] <;>
      norm_num
  have hdet : ((dropColumn Xcollinear 2)ᵀ * dropColumn Xcollinear 2).det ≠ 0 := by
    rw [hdropEq, Matrix.det_fin_two]
    simp [Matrix.mul_apply, Matrix.transpose_apply, Fin.sum_univ_succ]
    norm_num
  exact vif_perfect_collinearity_infinite Xcollinear 2 ![0, 2] hcol hdet

/-- Claim C9: for true and predicted target vectors of unequal length,
every metric computation of the evaluation cells — MAE, MSE, RMSE (under
any square-root routine) and R² — fails with the shape error instead of
producing a metric value. -/
theorem metrics_shape_error (yTrue yPred : List ℚ)
    (h : yTrue.length ≠ yPred.length) :
    mean_absolute_error yTrue yPred = .error "ShapeError" ∧
    mean_squared_error yTrue yPred = .error "ShapeError" ∧
    (∀ sqrt : ℚ → ℚ, model_rmse sqrt yTrue yPred = .error "ShapeError") ∧
    r2_score yTrue yPred = .error "ShapeError" := by
  refine ⟨?_, ?_, ?_, ?_⟩
  · unfold mean_absolute_error
    rw [if_neg h]
  · unfold mean_squared_error
    rw [if_neg h]
  · intro sqrt
    unfold model_rmse mean_squared_error
    rw [if_neg h]
    rfl
  · unfold r2_score
    rw [if_neg h]

/-- Claim C9 witness: `y_true` of length 5 against `y_pred` of length 4
makes all four metrics fail with the shape error. -/
theorem metrics_shape_error_witness :
    mean_absolute_error [1, 2, 3, 4, 5] [1, 2, 3, 4] = .error "ShapeError" ∧
    mean_squared_error [1, 2, 3, 4, 5] [1, 2, 3, 4] = .error "ShapeError" ∧
    model_rmse id [1, 2, 3, 4, 5] [1, 2, 3, 4] = .error "ShapeError" ∧
    r2_score [1, 2, 3, 4, 5] [1, 2, 3, 4] = .error "ShapeError" := by
  have h := metrics_shape_error [1, 2, 3, 4, 5] [1, 2, 3, 4] (by decide)
  exact ⟨h.1, h.2.1, h.2.2.1 id, h.2.2.2⟩

/-! ### Cleaning invariant -/

/-- Coercing a row of purely numeric cells yields only present (non-NaN)
float values. -/
lemma coerceCells_all_isSome (cs : List RawCell) (vs : List (Option ℚ))
    (hok : coerceCells cs = .ok vs)
    (hnum : ∀ c ∈ cs, ∃ q, c = RawCell.num q) :
    ∀ v ∈ vs, v.isSome = true := by
  induction cs generalizing vs with
  | nil =>
    simp only [coerceCells] at hok
    cases hok
    intro v hv
    cases hv
  | cons c cs ih =>
    obtain ⟨q, hq⟩ := hnum c (List.mem_cons_self c cs)
    subst hq
    simp only [coerceCells, replaceSentinel, toFloat, Except.bind] at hok
    cases hcs : coerceCells cs with
    | error e =>
      rw [hcs] at hok
      cases hok
    | ok vs' =>
      rw [hcs] at hok
      cases hok
      intro v hv
      rcases List.mem_cons.mp hv with h | h
      · subst h
        rfl
      · exact ih vs' hcs (fun c hc => hnum c (List.mem_cons_of_mem _ hc)) v h

/-- Every coerced row comes from a source row with the same year index
whose cells coerced to it. -/
lemma coerceRows_mem (rows : List (Int × List RawCell))
    (rs : List (Int × List (Option ℚ))) (hok : coerceRows rows = .ok rs) :
    ∀ r ∈ rs, ∃ cs, (r.1, cs) ∈ rows ∧ coerceCells cs = .ok r.2 := by
  induction rows generalizing rs with
  | nil =>
    simp only [coerceRows] at hok
    cases hok
    intro r hr
    cases hr
  | cons row rows ih =>
    obtain ⟨y, cs⟩ := row
    simp only [coerceRows, Except.bind] at hok
    cases hcs : coerceCells cs with
    | error e =>
      rw [hcs] at hok
      cases hok
    | ok vs =>
      rw [hcs] at hok
      cases hrest : coerceRows rows with
      | error e =>
        rw [hrest] at hok
        cases hok
      | ok rs' =>
        rw [hrest] at hok
        cases hok
        intro r hr
        rcases List.mem_cons.mp hr with h | h
        · subst h
          exact ⟨cs, List.mem_cons_self _ _, hcs⟩
        · obtain ⟨cs', hmem, hcs'⟩ := ih rs' hrest r h
          exact ⟨cs', List.mem_cons_of_mem _ hmem, hcs'⟩

/-- Claim C7, amended: the cleaning steps turn the `".."` sentinel into a
true missing marker (NaN) rather than removing it, so the cleaned table is
free of missing values provided every source cell in the retained year
range 1969–2016 is numeric; all present values are finite floats. -/
theorem clean_no_missing_of_numeric (rename : String → String)
    (t : RawTable) (ct : CleanTable) (hok : cleanTable rename t = .ok ct)
    (hnum : ∀ r ∈ t.rows, 1969 ≤ r.1 → r.1 ≤ 2016 →
      ∀ c ∈ r.2, ∃ q, c = RawCell.num q) :
    noMissing ct = true := by
  unfold cleanTable at hok
  cases hrows : coerceRows t.rows with
  | error e =>
    rw [hrows] at hok
    cases hok
  | ok rs =>
    rw [hrows] at hok
    cases hok
    unfold noMissing
    rw [List.all_eq_true]
    intro r hr
    have hmem := List.mem_filter.mp hr
    have hyr : 1969 ≤ r.1 ∧ r.1 ≤ 2016 := by
      have hb := hmem.2
      rw [Bool.and_eq_true, decide_eq_true_eq, decide_eq_true_eq] at hb
      exact hb
    obtain ⟨cs, hcsmem, hcs⟩ := coerceRows_mem t.rows rs hrows r hmem.1
    have hnums := hnum (r.1, cs) hcsmem hyr.1 hyr.2
    rw [List.all_eq_true]
    exact coerceCells_all_isSome cs r.2 hcs hnums

/-- A raw table with the `".."` sentinel in a retained row (year 1970). -/
def rawMissingDemo : RawTable :=
  { colNames := ["unemployment"], rows := [(1970, [RawCell.str ".."])] }

/-- Claim C7 counterexample: cleaning `rawMissingDemo` succeeds but the
resulting table still contains a missing (NaN) value — the sentinel was
converted to NaN, not removed, so the claimed invariant fails. -/
theorem clean_missing_counterexample :
    (cleanTable (fun s => s) rawMissingDemo).map noMissing = .ok false := rfl

/-- A raw table whose retained rows (only year 1970) are fully numeric;
the `".."` outside the range (year 1950) is filtered away. -/
def rawNumericDemo : RawTable :=
  { colNames := ["unemployment"]
    rows := [(1970, [RawCell.num 3]), (1950, [RawCell.str ".."])] }

/-- The cleaned form of `rawNumericDemo`. -/
def cleanNumericDemo : CleanTable :=
  { colNames := ["unemployment"], rows := [(1970, [some 3])] }

/-- Claim C7 witness (amended claim): on `rawNumericDemo` cleaning succeeds
and the cleaned table has no missing values. -/
theorem clean_no_missing_of_numeric_witness :
    cleanTable (fun s => s) rawNumericDemo = .ok cleanNumericDemo ∧
    noMissing cleanNumericDemo = true := by
  refine ⟨rfl, ?_⟩
  apply clean_no_missing_of_numeric (fun s => s) rawNumericDemo
    cleanNumericDemo rfl
  intro r hr h1 h2 c hc
  simp only [rawNumericDemo, List.mem_cons, List.not_mem_nil, or_false] at hr
  rcases hr with h | h
  · rw [h] at hc
    simp only [List.mem_cons, List.not_mem_nil, or_false] at hc
    exact ⟨3, hc⟩
  · rw [h] at h1
    norm_num at h1

/-! ### Determinism and pipeline data flow -/

/-- Claim C6: the fit itself contains no randomness — refitting identical
inputs yields identical results — and the train/test split takes an
explicit seed, so two runs of the whole pipeline with the same seed (and
the same library shuffle) produce the same partition and the same
downstream outputs. -/
theorem split_and_pipeline_deterministic
    (shuffle : ℕ → (n : ℕ) → List (Fin n)) {n k : ℕ}
    (X : Matrix (Fin n) (Fin k) ℚ) (Y : Fin n → ℚ) (s₁ s₂ : ℕ)
    (h : s₁ = s₂) :
    olsFit X Y .nonrobust = olsFit X Y .nonrobust ∧
    trainTestSplit shuffle s₁ n = trainTestSplit shuffle s₂ n ∧
    runPipeline shuffle s₁ X Y = runPipeline shuffle s₂ X Y := by
  subst h
  exact ⟨rfl, rfl, rfl⟩

/-- The identity "shuffle": a concrete stand-in for the library's seeded
permutation, used only to instantiate theorems at concrete inputs. -/
def idShuffle : ℕ → (n : ℕ) → List (Fin n) := fun _ n => List.finRange n

/-- Claim C6 witness: with seed 1 twice on the concrete data, the split
and the full pipeline run coincide. -/
theorem split_and_pipeline_deterministic_witness :
    trainTestSplit idShuffle 1 4 = trainTestSplit idShuffle 1 4 ∧
    runPipeline idShuffle 1 Xdemo Ydemo = runPipeline idShuffle 1 Xdemo Ydemo := by
  have h := split_and_pipeline_deterministic idShuffle Xdemo Ydemo 1 1 rfl
  exact ⟨h.2.1, h.2.2⟩

/-- Claim C10: in every pipeline run, the residual vector handed to the
diagnostic cells is that of the OLS fit on the full `n`-row dataset, while
the error metrics are computed from predictions of a separate model fitted
only on the training split (`n − ⌈n/5⌉` rows) and evaluated on the
held-out test split (`⌈n/5⌉` rows); the training set is strictly smaller
than the full dataset, so the two fitted models are not fits of the same
data. -/
theorem diagnostics_full_fit_metrics_split_fit
    (shuffle : ℕ → (n : ℕ) → List (Fin n)) (seed : ℕ) {n k : ℕ}
    (X : Matrix (Fin n) (Fin k) ℚ) (Y : Fin n → ℚ)
    (hlen : (shuffle seed n).length = n) (hn : 5 ≤ n) :
    (runPipeline shuffle seed X Y).diagResid = olsResid (addConstant X) Y ∧
    (runPipeline shuffle seed X Y).yTest =
      (runPipeline shuffle seed X Y).testIdx.map Y ∧
    (runPipeline shuffle seed X Y).yPredict =
      (runPipeline shuffle seed X Y).testIdx.map
        (fun i => sklearnPredictRow
          (sklearnFitParams
            (selectRows X (runPipeline shuffle seed X Y).trainIdx)
            (selectVec Y (runPipeline shuffle seed X Y).trainIdx))
          fun l => X i l) ∧
    (runPipeline shuffle seed X Y).mse =
      mean_squared_error (runPipeline shuffle seed X Y).yTest
        (runPipeline shuffle seed X Y).yPredict ∧
    (runPipeline shuffle seed X Y).testIdx.length = nTestOf n ∧
    (runPipeline shuffle seed X Y).trainIdx.length = n - nTestOf n ∧
    (runPipeline shuffle seed X Y).trainIdx.length < n := by
  have htest : (runPipeline shuffle seed X Y).testIdx.length = nTestOf n := by
    show ((shuffle seed n).take (nTestOf n)).length = nTestOf n
    rw [List.length_take, hlen]
    refine min_eq_left ?_
    have h5 : nTestOf n ≤ (5 * n) / 5 := by
      unfold nTestOf
      exact Nat.div_le_div_right (by omega)
    rwa [Nat.mul_div_cancel_left n (by norm_num)] at h5
  have htrain : (runPipeline shuffle seed X Y).trainIdx.length = n - nTestOf n := by
    show ((shuffle seed n).drop (nTestOf n)).length = n - nTestOf n
    rw [List.length_drop, hlen]
  refine ⟨rfl, rfl, rfl, rfl, htest, htrain, ?_⟩
  rw [htrain]
  have hpos : 1 ≤ nTestOf n := by
    unfold nTestOf
    rw [Nat.one_le_div_iff (by norm_num)]
    omega
  omega

/-- Concrete 5-row design matrix (single regressor). -/
def X5demo : Matrix (Fin 5) (Fin 1) ℚ := !![1; 2; 3; 4; 5]

/-- Concrete 5-row target vector. -/
def Y5demo : Fin 5 → ℚ := ![2, 4, 6, 8, 10]

/-- Claim C10 witness: on a 5-row dataset with the identity shuffle and
seed 1, the test split has 1 row, the training split has 4 of the 5 rows,
and the diagnostics residual vector is that of the full-data OLS fit. -/
theorem diagnostics_full_fit_metrics_split_fit_witness :
    (runPipeline idShuffle 1 X5demo Y5demo).testIdx.length = 1 ∧
    (runPipeline idShuffle 1 X5demo Y5demo).trainIdx.length = 4 ∧
    (runPipeline idShuffle 1 X5demo Y5demo).diagResid =
      olsResid (addConstant X5demo) Y5demo := by
  have h := diagnostics_full_fit_metrics_split_fit idShuffle 1 X5demo Y5demo
    (by simp [idShuffle]) (by norm_num)
  refine ⟨?_, ?_, h.1⟩
  · rw [h.2.2.2.2.1]
    rfl
  · rw [h.2.2.2.2.2.1]
    rfl
